import Mathlib

/-!
Verification of the scalar math helpers in `include/gf/Math.h` and the
system-info delegations in `library/graphics/SystemInfo.cc` of the gf
(Gamedev Framework) repository.

The C++ functions are templates over a numeric type `T`.  We embed them
over exact arithmetic:

* `ℚ` for the purely algebraic functions (`almostEquals`, `lerp`,
  `clamp`, the polynomial step functions, `sign`, `absdiff`), with the
  type-dependent constants `std::numeric_limits<T>::denorm_min()` and
  `std::numeric_limits<T>::max()` as abstract parameters `dm` and `mx`;
* `ℝ` with the mathematical `Real.pi` and `Real.cos` for the functions
  whose statements involve π (`degreesToRadians`, `radiansToDegrees`,
  `cosineStep`), idealizing `gf::pi<T>()` and `std::cos`;
* a NaN-extended rational type `FP` for the claims about IEEE-754
  not-a-number propagation: every comparison involving NaN is false and
  every arithmetic operation involving NaN yields NaN, which is the IEEE
  behaviour the code relies on;
* unsigned `w`-bit integers as naturals with wrap-around subtraction for
  the unsigned instantiation of `absdiff`.
-/

namespace gf

/-- Embedding of `gf::almostEquals` (Math.h, lines 106–123) over `ℚ`.
`dm` stands for `std::numeric_limits<T>::denorm_min()` and `mx` for
`std::numeric_limits<T>::max()`. -/
def almostEquals (dm mx : ℚ) (a b eps : ℚ) : Bool :=
  if a = b then
    true
  else
    let diff : ℚ := |a - b|
    if a = 0 ∨ b = 0 ∨ diff < dm then
      decide (diff < eps * dm)
    else
      let sum : ℚ := |a| + |b|
      let sum' : ℚ := if sum < mx then sum else mx
      decide (diff / sum' < eps)

/-- The comparison of claim C1, written from the spec's words: after the
early-equality test and the near-zero branch, normalize by
`min (abs a + abs b) mx`. -/
def almostEqualsClaim (dm mx : ℚ) (a b eps : ℚ) : Bool :=
  if a = b then
    true
  else if a = 0 ∨ b = 0 ∨ |a - b| < dm then
    decide (|a - b| < eps * dm)
  else
    decide (|a - b| / min (|a| + |b|) mx < eps)

/-- Embedding of `gf::lerp` (Math.h, lines 264–268) over `ℚ`. -/
def lerp (lhs rhs t : ℚ) : ℚ :=
  (1 - t) * lhs + t * rhs

/-- Embedding of `gf::linearStep` (Math.h, lines 187–191) over `ℚ`. -/
def linearStep (t : ℚ) : ℚ :=
  t

/-- Embedding of `gf::cubicStep` (Math.h, lines 208–212) over `ℚ`,
keeping the factored evaluation of the source. -/
def cubicStep (t : ℚ) : ℚ :=
  (-(2 : ℚ) * t + 3) * t * t

/-- Embedding of `gf::quinticStep` (Math.h, lines 231–235) over `ℚ`,
keeping the factored evaluation of the source. -/
def quinticStep (t : ℚ) : ℚ :=
  (((6 : ℚ) * t - 15) * t + 10) * t * t * t

/-- Embedding of `gf::cosineStep` (Math.h, lines 245–249) over `ℝ`,
with `gf::pi<T>()` idealized as `Real.pi` and `std::cos` as `Real.cos`. -/
noncomputable def cosineStep (t : ℝ) : ℝ :=
  (1 - Real.cos (Real.pi * t)) * (0.5 : ℝ)

/-- Embedding of `gf::degreesToRadians` (Math.h, lines 133–137) over `ℝ`,
with `gf::pi<T>()` idealized as `Real.pi`. -/
noncomputable def degreesToRadians (degrees : ℝ) : ℝ :=
  degrees * Real.pi / 180

/-- Embedding of `gf::radiansToDegrees` (Math.h, lines 147–151) over `ℝ`,
with `gf::pi<T>()` idealized as `Real.pi`. -/
noncomputable def radiansToDegrees (radians : ℝ) : ℝ :=
  radians * 180 / Real.pi

/-- Embedding of `gf::clamp` (Math.h, lines 282–286) over `ℚ`. -/
def clamp (val lo hi : ℚ) : ℚ :=
  if val < lo then lo else if val > hi then hi else val

/-- Embedding of `gf::sign` (Math.h, lines 332–336) over `ℚ`: the two
boolean comparisons convert to `0`/`1` and are subtracted. -/
def sign (val : ℚ) : ℤ :=
  (if val > 0 then 1 else 0) - (if val < 0 then 1 else 0)

/-- Embedding of `gf::absdiff` (Math.h, lines 350–354) over `ℚ`. -/
def absdiff (lhs rhs : ℚ) : ℚ :=
  if lhs > rhs then lhs - rhs else rhs - lhs

/-- A NaN-extended rational: the value model used for the claims about
IEEE-754 not-a-number behaviour.  Finite values carry a rational;
infinities are not needed by the claims and are not modelled. -/
inductive FP where
  | nan : FP
  | num : ℚ → FP
deriving DecidableEq

namespace FP

/-- IEEE equality test `==`: any comparison involving NaN is false. -/
def beq : FP → FP → Bool
  | nan, _ => false
  | _, nan => false
  | num x, num y => decide (x = y)

/-- IEEE ordered comparison `<`: any comparison involving NaN is false. -/
def blt : FP → FP → Bool
  | nan, _ => false
  | _, nan => false
  | num x, num y => decide (x < y)

/-- Addition with NaN propagation. -/
def add : FP → FP → FP
  | nan, _ => nan
  | _, nan => nan
  | num x, num y => num (x + y)

/-- Subtraction with NaN propagation. -/
def sub : FP → FP → FP
  | nan, _ => nan
  | _, nan => nan
  | num x, num y => num (x - y)

/-- Multiplication with NaN propagation. -/
def mul : FP → FP → FP
  | nan, _ => nan
  | _, nan => nan
  | num x, num y => num (x * y)

/-- Division with NaN propagation.  Division of finite values uses exact
rational division; the claims never divide by zero (the divisor on the
only division path is clamped to the positive value `mx`). -/
def div : FP → FP → FP
  | nan, _ => nan
  | _, nan => nan
  | num x, num y => num (x / y)

/-- `std::abs` with NaN propagation. -/
def abs : FP → FP
  | nan => nan
  | num x => num |x|

end FP

/-- Embedding of `gf::almostEquals` (Math.h, lines 106–123) over the
NaN-extended rationals, following the source line by line with IEEE
comparison and propagation semantics.  `dm` and `mx` are the (finite,
positive) values of `denorm_min()` and `max()` for the type. -/
def almostEqualsFP (dm mx : ℚ) (a b eps : FP) : Bool :=
  if a.beq b then
    true
  else
    let diff : FP := (a.sub b).abs
    if a.beq (.num 0) || b.beq (.num 0) || diff.blt (.num dm) then
      diff.blt (eps.mul (.num dm))
    else
      let sum : FP := (a.abs).add (b.abs)
      let sum' : FP := if sum.blt (.num mx) then sum else .num mx
      (diff.div sum').blt eps

/-- Embedding of `gf::sign` (Math.h, lines 332–336) over the
NaN-extended rationals: `(val > 0) - (val < 0)` with IEEE comparisons,
each converting to `0`/`1`. -/
def signFP (val : FP) : ℤ :=
  (if (FP.num 0).blt val then 1 else 0) - (if val.blt (FP.num 0) then 1 else 0)

/-- Wrap-around subtraction of `w`-bit unsigned integers, the semantics
of the `-` operator for a C++ unsigned type of width `w`. -/
def usub (w x y : ℕ) : ℕ :=
  (x + 2 ^ w - y) % 2 ^ w

/-- Embedding of `gf::absdiff` instantiated at a `w`-bit unsigned type:
the comparison uses the numeric values, the subtraction wraps. -/
def absdiffU (w x y : ℕ) : ℕ :=
  if x > y then usub w x y else usub w y x

/-- Abstract interface of the underlying system library (SDL): one field
per call the code makes, holding whatever value the library would
return in the current run. -/
structure Sdl where
  getPlatform : String
  getCPUCacheLineSize : ℤ
  getCPUCount : ℤ
  getSystemRAM : ℤ

/-! Embedding of `SystemInfo` (SystemInfo.cc, lines 30–44): each static
member function, as a function of the system-library state. -/

namespace SystemInfo

/-- `SystemInfo::getPlatformName` returns `std::string(SDL_GetPlatform())`. -/
def getPlatformName (sdl : Sdl) : String :=
  sdl.getPlatform

/-- `SystemInfo::getCpuCacheLineSize` returns `SDL_GetCPUCacheLineSize()`. -/
def getCpuCacheLineSize (sdl : Sdl) : ℤ :=
  sdl.getCPUCacheLineSize

/-- `SystemInfo::getCpuCount` returns `SDL_GetCPUCount()`. -/
def getCpuCount (sdl : Sdl) : ℤ :=
  sdl.getCPUCount

/-- `SystemInfo::getSystemRamSize` returns `SDL_GetSystemRAM()`. -/
def getSystemRamSize (sdl : Sdl) : ℤ :=
  sdl.getSystemRAM

end SystemInfo

end gf

/-! ## Theorems for the claims over exact rational arithmetic -/

/-- C1: `almostEquals(a, b, epsilon)` returns true immediately when
`a = b`; otherwise, with `diff = |a - b|`, if `a` or `b` is zero or
`diff` is below the smallest representable positive value `dm`, it
returns whether `diff < epsilon * dm`; otherwise it returns whether
`diff / min (|a| + |b|) mx < epsilon` where `mx` is the type's largest
value.  Stated as: the source function coincides with the function
written from the claim's words. -/
theorem gf.almostEquals_eq_claim (dm mx a b eps : ℚ) :
    gf.almostEquals dm mx a b eps = gf.almostEqualsClaim dm mx a b eps := by
  unfold gf.almostEquals gf.almostEqualsClaim
  by_cases hab : a = b
  · simp [hab]
  · simp only [if_neg hab]
    by_cases hz : a = 0 ∨ b = 0 ∨ |a - b| < dm
    · simp [hz]
    · simp only [if_neg hz]
      have hmin : (if |a| + |b| < mx then |a| + |b| else mx) = min (|a| + |b|) mx := by
        rcases lt_trichotomy (|a| + |b|) mx with h | h | h
        · simp [h, min_eq_left h.le]
        · simp [h, le_of_eq h]
        · simp [not_lt.mpr h.le, min_eq_right h.le]
      rw [hmin]

/-- C2: `lerp(a, b, t)` computes `(1 - t) * a + t * b`, and in
particular `lerp(a, b, 0) = a` and `lerp(a, b, 1) = b` exactly, with no
clamping of `t`. -/
theorem gf.lerp_formula_and_endpoints (a b t : ℚ) :
    gf.lerp a b t = (1 - t) * a + t * b ∧ gf.lerp a b 0 = a ∧ gf.lerp a b 1 = b := by
  refine ⟨rfl, ?_, ?_⟩ <;> simp [gf.lerp]

/-- C3: each of the four step functions maps 0 to 0 and 1 to 1. -/
theorem gf.steps_endpoints :
    gf.linearStep 0 = 0 ∧ gf.linearStep 1 = 1 ∧
    gf.cubicStep 0 = 0 ∧ gf.cubicStep 1 = 1 ∧
    gf.quinticStep 0 = 0 ∧ gf.quinticStep 1 = 1 ∧
    gf.cosineStep 0 = 0 ∧ gf.cosineStep 1 = 1 := by
  refine ⟨rfl, rfl, by norm_num [gf.cubicStep], by norm_num [gf.cubicStep],
    by norm_num [gf.quinticStep], by norm_num [gf.quinticStep], ?_, ?_⟩
  · simp [gf.cosineStep]
  · norm_num [gf.cosineStep, Real.cos_pi]

/-- C4: the factored evaluations of the source equal the spec's
polynomials: `cubicStep t = -2 t^3 + 3 t^2` and
`quinticStep t = 6 t^5 - 15 t^4 + 10 t^3`. -/
theorem gf.steps_polynomials (t : ℚ) :
    gf.cubicStep t = -2 * t ^ 3 + 3 * t ^ 2 ∧
    gf.quinticStep t = 6 * t ^ 5 - 15 * t ^ 4 + 10 * t ^ 3 := by
  constructor
  · unfold gf.cubicStep; ring
  · unfold gf.quinticStep; ring

/-- C5: for `lo ≤ hi`, `clamp(val, lo, hi)` returns `lo` when
`val < lo`, `hi` when `val > hi`, `val` otherwise, and the result always
lies in `[lo, hi]`. -/
theorem gf.clamp_cases_and_range (val lo hi : ℚ) (h : lo ≤ hi) :
    gf.clamp val lo hi = (if val < lo then lo else if val > hi then hi else val) ∧
    lo ≤ gf.clamp val lo hi ∧ gf.clamp val lo hi ≤ hi := by
  refine ⟨rfl, ?_, ?_⟩ <;> (unfold gf.clamp; split_ifs with h1 h2 <;> linarith)

/-- Witness for C5 at `val = 5`, `lo = 0`, `hi = 2`. -/
theorem gf.clamp_cases_and_range_witness :
    (0 : ℚ) ≤ 2 ∧
    (gf.clamp 5 0 2 = (if (5 : ℚ) < 0 then 0 else if (5 : ℚ) > 2 then 2 else 5) ∧
      (0 : ℚ) ≤ gf.clamp 5 0 2 ∧ gf.clamp 5 0 2 ≤ 2) :=
  ⟨by norm_num, gf.clamp_cases_and_range 5 0 2 (by norm_num)⟩

/-- C6: `absdiff(a, b) = |a - b|` and is symmetric; instantiated at a
`w`-bit unsigned type, the comparison-first implementation avoids
underflow, so the result is the true absolute difference, e.g.
`absdiff 3 10 = absdiff 10 3 = 7`. -/
theorem gf.absdiff_abs_symm (a b : ℚ) (w x y : ℕ) (hx : x < 2 ^ w) (hy : y < 2 ^ w) :
    gf.absdiff a b = |a - b| ∧ gf.absdiff a b = gf.absdiff b a ∧
    (gf.absdiffU w x y : ℤ) = |(x : ℤ) - (y : ℤ)| ∧
    gf.absdiffU w x y = gf.absdiffU w y x := by
  have husub : ∀ u v : ℕ, v ≤ u → u < 2 ^ w → gf.usub w u v = u - v := by
    intro u v huv hu
    unfold gf.usub
    have h1 : u + 2 ^ w - v = (u - v) + 2 ^ w := by omega
    rw [h1, Nat.add_mod_right, Nat.mod_eq_of_lt (by omega)]
  refine ⟨?_, ?_, ?_, ?_⟩
  · unfold gf.absdiff
    split_ifs with h1
    · rw [abs_of_pos (by linarith)]
    · rw [abs_of_nonpos (by linarith)]; ring
  · unfold gf.absdiff
    split_ifs with h1 h2 <;> first | rfl | linarith
  · unfold gf.absdiffU
    split_ifs with h1
    · rw [husub x y (le_of_lt h1) hx, abs_of_nonneg (by omega : (0 : ℤ) ≤ (x : ℤ) - (y : ℤ))]
      omega
    · rw [husub y x (by omega) hy, abs_of_nonpos (by omega : (x : ℤ) - (y : ℤ) ≤ 0)]
      omega
  · unfold gf.absdiffU
    rcases Nat.lt_trichotomy x y with h | h | h
    · simp [h, not_lt.mpr (le_of_lt h)]
    · simp [h]
    · simp [h, not_lt.mpr (le_of_lt h)]

/-- Witness for C6 at `a = 3`, `b = 10` over `ℚ` and `x = 3`, `y = 10`
at width 32: both orders give 7. -/
theorem gf.absdiff_abs_symm_witness :
    (3 : ℕ) < 2 ^ 32 ∧ (10 : ℕ) < 2 ^ 32 ∧
    (gf.absdiff 3 10 = |(3 : ℚ) - 10| ∧ gf.absdiff 3 10 = gf.absdiff 10 3 ∧
      (gf.absdiffU 32 3 10 : ℤ) = |(3 : ℤ) - (10 : ℤ)| ∧
      gf.absdiffU 32 3 10 = gf.absdiffU 32 10 3) :=
  ⟨by norm_num, by norm_num,
    gf.absdiff_abs_symm 3 10 32 3 10 (by norm_num) (by norm_num)⟩

/-- C7: `degreesToRadians` multiplies by π/180 and `radiansToDegrees`
multiplies by 180/π, the two are mutually inverse, and
`degreesToRadians 180 = π`, `radiansToDegrees π = 180`. -/
theorem gf.angle_conversions (d r : ℝ) :
    gf.degreesToRadians d = d * (Real.pi / 180) ∧
    gf.radiansToDegrees r = r * (180 / Real.pi) ∧
    gf.radiansToDegrees (gf.degreesToRadians d) = d ∧
    gf.degreesToRadians (gf.radiansToDegrees r) = r ∧
    gf.degreesToRadians 180 = Real.pi ∧
    gf.radiansToDegrees Real.pi = 180 := by
  have hpi := Real.pi_ne_zero
  unfold gf.degreesToRadians gf.radiansToDegrees
  refine ⟨by ring, by ring, ?_, ?_, ?_, ?_⟩ <;> field_simp

/-- C8: all the embedded functions are total Lean functions, and NaN is
not special-cased: with IEEE comparison and propagation rules,
`almostEquals(NaN, b, eps)` and `almostEquals(a, NaN, eps)` come out
false for every `b`, `a` and `eps`. -/
theorem gf.almostEquals_nan_false (dm mx : ℚ) (a b eps : gf.FP) :
    gf.almostEqualsFP dm mx gf.FP.nan b eps = false ∧
    gf.almostEqualsFP dm mx a gf.FP.nan eps = false := by
  constructor
  · cases b with
    | nan =>
        simp [gf.almostEqualsFP, gf.FP.beq, gf.FP.blt, gf.FP.sub, gf.FP.abs,
          gf.FP.add, gf.FP.mul, gf.FP.div]
    | num q =>
        by_cases hq : q = 0 <;>
          simp [gf.almostEqualsFP, gf.FP.beq, gf.FP.blt, gf.FP.sub, gf.FP.abs,
            gf.FP.add, gf.FP.mul, gf.FP.div, hq]
  · cases a with
    | nan =>
        simp [gf.almostEqualsFP, gf.FP.beq, gf.FP.blt, gf.FP.sub, gf.FP.abs,
          gf.FP.add, gf.FP.mul, gf.FP.div]
    | num q =>
        by_cases hq : q = 0 <;>
          simp [gf.almostEqualsFP, gf.FP.beq, gf.FP.blt, gf.FP.sub, gf.FP.abs,
            gf.FP.add, gf.FP.mul, gf.FP.div, hq]

/-- C9: each of the four `SystemInfo` operations returns exactly the
value produced by the corresponding system-library call, with no
transformation, caching or additional logic. -/
theorem gf.systemInfo_delegates (sdl : gf.Sdl) :
    gf.SystemInfo.getPlatformName sdl = sdl.getPlatform ∧
    gf.SystemInfo.getCpuCacheLineSize sdl = sdl.getCPUCacheLineSize ∧
    gf.SystemInfo.getCpuCount sdl = sdl.getCPUCount ∧
    gf.SystemInfo.getSystemRamSize sdl = sdl.getSystemRAM :=
  ⟨rfl, rfl, rfl, rfl⟩

/-- C10: `sign` returns 0 for every input that is neither
ordered-greater nor ordered-less than zero — in particular
`sign(NaN) = 0`, the same result as for exactly zero. -/
theorem gf.sign_unordered_zero (x : gf.FP)
    (h1 : gf.FP.blt (gf.FP.num 0) x = false)
    (h2 : gf.FP.blt x (gf.FP.num 0) = false) :
    gf.signFP x = 0 ∧ gf.signFP gf.FP.nan = 0 ∧ gf.signFP (gf.FP.num 0) = 0 := by
  refine ⟨?_, rfl, ?_⟩
  · simp [gf.signFP, h1, h2]
  · simp [gf.signFP, gf.FP.blt]

/-- Witness for C10 at `x = NaN`: both comparisons with zero are false
and the sign is 0. -/
theorem gf.sign_unordered_zero_witness :
    gf.FP.blt (gf.FP.num 0) gf.FP.nan = false ∧
    gf.FP.blt gf.FP.nan (gf.FP.num 0) = false ∧
    (gf.signFP gf.FP.nan = 0 ∧ gf.signFP gf.FP.nan = 0 ∧ gf.signFP (gf.FP.num 0) = 0) :=
  ⟨rfl, rfl, gf.sign_unordered_zero gf.FP.nan rfl rfl⟩
